import Mathlib

/-!
Shallow embedding of the receiver-matchup scoring model from
`src/Inputs/app.py` (function `compute_model` and the module-level state it
reads), over exact rational arithmetic.  Python floats are modelled by `ℚ`,
`NaN`-able columns by `Option ℚ`, the pandas defense table by an association
list keyed by team code, and exceptions by `Except String`.
-/

/-- One receiver row of `wr_df` as it reaches `compute_model`: after the
matchup merge `opponent` may be missing (`NaN`), after the blitz merge
`yprr_blitz` may be missing, and `route_share` is read with
`row.get("route_share", 0)`. -/
structure WRRow where
  player : String
  team : String
  opponent : Option String
  base_yprr : ℚ
  routes_played : ℚ
  yprr_man : Option ℚ
  yprr_zone : Option ℚ
  yprr_1high : Option ℚ
  yprr_2high : Option ℚ
  yprr_0high : Option ℚ
  yprr_blitz : Option ℚ
  route_share : Option ℚ
deriving DecidableEq

/-- One defense row of `def_df`, after the load-time division of the six
percentage columns by 100. -/
structure DefenseProfile where
  man_pct : ℚ
  zone_pct : ℚ
  onehigh_pct : ℚ
  twohigh_pct : ℚ
  zerohigh_pct : ℚ
  blitz_pct : ℚ
deriving DecidableEq

/-- The keyword parameters of `compute_model` with their source defaults
`max_penalty=0.6, exponent=2, start_penalty=30, end_penalty=5,
deviation_boost=0.25`. -/
structure ModelConfig where
  max_penalty : ℚ
  exponent : ℕ
  start_penalty : ℚ
  end_penalty : ℚ
  deviation_boost : ℚ
deriving DecidableEq

/-- Module-level state read by `compute_model` that is not among its
parameters: the two sidebar route-share toggles and the five league-average
coverage rates computed from the module-loaded defense table. -/
structure Globals where
  qualified_toggle_35 : Bool
  qualified_toggle_20 : Bool
  league_avg_man : ℚ
  league_avg_zone : ℚ
  league_avg_1high : ℚ
  league_avg_2high : ℚ
  league_avg_0high : ℚ
deriving DecidableEq

/-- One output row of the result frame (all columns except the rank `Rk`,
which is attached after sorting). -/
structure ScoredRow where
  player : String
  tm : String
  vs : String
  route_pct : ℚ
  base_out : ℚ
  adj_out : ℚ
  matchup : ℚ
  deviation : ℚ
  edge : ℚ
deriving DecidableEq

/-- Model of `np.clip(x, lo, hi)`. -/
def clip (x lo hi : ℚ) : ℚ := min (max x lo) hi

/-- Model of Python `round` to an integer: round-half-to-even. -/
def roundHE (x : ℚ) : ℤ :=
  if x - ⌊x⌋ < 1/2 then ⌊x⌋
  else if 1/2 < x - ⌊x⌋ then ⌊x⌋ + 1
  else if ⌊x⌋ % 2 = 0 then ⌊x⌋ else ⌊x⌋ + 1

/-- Model of Python `round(x, n)` for `n` decimal digits. -/
def pyround (x : ℚ) (n : ℕ) : ℚ := (roundHE (x * 10 ^ n) : ℚ) / 10 ^ n

/-- The inner helper `regressed_ratio` of `compute_model`: a missing split is
replaced by the row's `base_yprr`, the split is regressed toward the base with
weight `REG_K = 20`, and the resulting performance quotient is clamped with
`np.clip(ratio, MIN_RATIO, MAX_RATIO)` where `MIN_RATIO = 0.6` and
`MAX_RATIO = 1.6`. -/
def regressedSplit (base routes : ℚ) (split : Option ℚ) : ℚ :=
  let s := split.getD base
  let effective := (s * routes + base * 20) / (routes + 20)
  clip (effective / base) 0.6 1.6

/-- The `man_ratio` local of `compute_model`. -/
def ratioMan (r : WRRow) : ℚ := regressedSplit r.base_yprr r.routes_played r.yprr_man

/-- The `zone_ratio` local of `compute_model`. -/
def ratioZone (r : WRRow) : ℚ := regressedSplit r.base_yprr r.routes_played r.yprr_zone

/-- The `onehigh_ratio` local of `compute_model`. -/
def ratioOneHigh (r : WRRow) : ℚ := regressedSplit r.base_yprr r.routes_played r.yprr_1high

/-- The `twohigh_ratio` local of `compute_model`. -/
def ratioTwoHigh (r : WRRow) : ℚ := regressedSplit r.base_yprr r.routes_played r.yprr_2high

/-- The `zerohigh_ratio` local of `compute_model`. -/
def ratioZeroHigh (r : WRRow) : ℚ := regressedSplit r.base_yprr r.routes_played r.yprr_0high

/-- The `blitz_ratio` local of `compute_model` (`row.get("yprr_blitz", base)`
defaults a missing column to `base`, and `regressed_ratio` defaults `NaN` to
`base`, so both missing cases collapse to `base`). -/
def ratioBlitz (r : WRRow) : ℚ := regressedSplit r.base_yprr r.routes_played r.yprr_blitz

/-- The `coverage_component` local of `compute_model`. -/
def coverageComponent (d : DefenseProfile) (r : WRRow) : ℚ :=
  d.man_pct * ratioMan r + d.zone_pct * ratioZone r

/-- The `total_coverage` local of `compute_model`. -/
def totalCoverage (d : DefenseProfile) : ℚ := d.man_pct + d.zone_pct

/-- The `safety_component` local of `compute_model` before the in-place
normalization. -/
def safetyComponentRaw (d : DefenseProfile) (r : WRRow) : ℚ :=
  d.onehigh_pct * ratioOneHigh r + d.twohigh_pct * ratioTwoHigh r +
    d.zerohigh_pct * ratioZeroHigh r

/-- The `total_safety` local of `compute_model`. -/
def totalSafety (d : DefenseProfile) : ℚ :=
  d.onehigh_pct + d.twohigh_pct + d.zerohigh_pct

/-- The `safety_component` local after `if total_safety > 0:
safety_component /= total_safety`. -/
def safetyComponent (d : DefenseProfile) (r : WRRow) : ℚ :=
  if 0 < totalSafety d then safetyComponentRaw d r / totalSafety d
  else safetyComponentRaw d r

/-- The `systemA_ratio` local of `compute_model`. -/
def systemA (d : DefenseProfile) (r : WRRow) : ℚ :=
  if 0 < totalCoverage d + totalSafety d then
    (coverageComponent d r * totalCoverage d + safetyComponent d r * totalSafety d) /
      (totalCoverage d + totalSafety d)
  else (coverageComponent d r + safetyComponent d r) / 2

/-- The `coverage_dev` local of `compute_model`. -/
def coverageDev (g : Globals) (d : DefenseProfile) : ℚ :=
  |d.man_pct - g.league_avg_man| + |d.zone_pct - g.league_avg_zone|

/-- The `safety_dev` local of `compute_model`. -/
def safetyDev (g : Globals) (d : DefenseProfile) : ℚ :=
  |d.onehigh_pct - g.league_avg_1high| + |d.twohigh_pct - g.league_avg_2high| +
    |d.zerohigh_pct - g.league_avg_0high|

/-- The `coverage_weight_dev` local of `compute_model`. -/
def covWeightDev (g : Globals) (d : DefenseProfile) : ℚ :=
  if 0 < coverageDev g d + safetyDev g d then
    coverageDev g d / (coverageDev g d + safetyDev g d)
  else 1/2

/-- The `safety_weight_dev` local of `compute_model`. -/
def safWeightDev (g : Globals) (d : DefenseProfile) : ℚ :=
  if 0 < coverageDev g d + safetyDev g d then
    safetyDev g d / (coverageDev g d + safetyDev g d)
  else 1/2

/-- The `systemB_ratio` local of `compute_model`. -/
def systemB (g : Globals) (d : DefenseProfile) (r : WRRow) : ℚ :=
  coverageComponent d r * covWeightDev g d + safetyComponent d r * safWeightDev g d

/-- The `final_ratio` local of `compute_model` (hybrid of the two systems). -/
def hybridRat (cfg : ModelConfig) (g : Globals) (d : DefenseProfile) (r : WRRow) : ℚ :=
  systemA d r * (1 - cfg.deviation_boost) + systemB g d r * cfg.deviation_boost

/-- The `adjusted_yprr` local: `base * ((final_ratio + blitz_ratio) / 2)`. -/
def adjustedYprr (cfg : ModelConfig) (g : Globals) (d : DefenseProfile) (r : WRRow) : ℚ :=
  r.base_yprr * ((hybridRat cfg g d r + ratioBlitz r) / 2)

/-- The `raw_edge` local: `(adjusted_yprr - base) / base`. -/
def rawEdge (cfg : ModelConfig) (g : Globals) (d : DefenseProfile) (r : WRRow) : ℚ :=
  (adjustedYprr cfg g d r - r.base_yprr) / r.base_yprr

/-- The `edge_score` local before the route-share penalty:
`edge_score = raw_edge * 100  # NO CAP`. -/
def edgeScorePre (cfg : ModelConfig) (g : Globals) (d : DefenseProfile) (r : WRRow) : ℚ :=
  rawEdge cfg g d r * 100

/-- The route-share penalty branch of `compute_model`, as a function of the
`route_share` value read from the row. -/
def routeSharePenalty (cfg : ModelConfig) (rs : ℚ) : ℚ :=
  if cfg.start_penalty ≤ rs then 0
  else if rs ≤ cfg.end_penalty then cfg.max_penalty
  else
    cfg.max_penalty *
      ((cfg.start_penalty - rs) / (cfg.start_penalty - cfg.end_penalty)) ^ cfg.exponent

/-- The `edge_score` local after `edge_score *= (1 - penalty)`. -/
def edgeScoreFinal (cfg : ModelConfig) (g : Globals) (d : DefenseProfile) (r : WRRow) : ℚ :=
  edgeScorePre cfg g d r * (1 - routeSharePenalty cfg (r.route_share.getD 0))

/-- The dictionary appended to `results` for one eligible row (`opp` is the
resolved opponent team code). -/
def scoreRow (cfg : ModelConfig) (g : Globals) (d : DefenseProfile) (opp : String)
    (r : WRRow) : ScoredRow :=
  ⟨r.player, r.team, opp, r.route_share.getD 0,
    pyround r.base_yprr 2,
    pyround (adjustedYprr cfg g d r) 2,
    pyround (edgeScoreFinal cfg g d r * (1 - cfg.deviation_boost)) 1,
    pyround (edgeScoreFinal cfg g d r * cfg.deviation_boost) 1,
    pyround (edgeScoreFinal cfg g d r) 1⟩

/-- The row loop of `compute_model`: skip a row when `base < 0.4 or
routes <= 0`, when `pd.isna(opponent)`, or when `opponent not in
def_df.index`; otherwise append its scored dictionary. -/
def scoreLoop (defs : List (String × DefenseProfile)) (cfg : ModelConfig) (g : Globals) :
    List WRRow → List ScoredRow
  | [] => []
  | r :: rest =>
    if r.base_yprr < 0.4 ∨ r.routes_played ≤ 0 then scoreLoop defs cfg g rest
    else
      r.opponent.elim (scoreLoop defs cfg g rest) fun opp =>
        (List.lookup opp defs).elim (scoreLoop defs cfg g rest) fun d =>
          scoreRow cfg g d opp r :: scoreLoop defs cfg g rest

/-- The route-share toggle filter applied to the result frame
(`if qualified_toggle_35: ... elif qualified_toggle_20: ...`). -/
def qualifiedFilter (g : Globals) (l : List ScoredRow) : List ScoredRow :=
  if g.qualified_toggle_35 then l.filter (fun s => 35 ≤ s.route_pct)
  else if g.qualified_toggle_20 then l.filter (fun s => 20 ≤ s.route_pct)
  else l

/-- Stable descending insertion by `|Edge|`: an incoming row moves past the
rows with strictly larger key and stops before the first row whose key is not
larger, so rows with equal keys keep their original relative order. -/
def insDesc (a : ScoredRow) : List ScoredRow → List ScoredRow
  | [] => [a]
  | b :: l => if |a.edge| < |b.edge| then b :: insDesc a l else a :: b :: l

/-- One concrete executable realization of
`df.reindex(df["Edge"].abs().sort_values(ascending=False).index)`: an
insertion sort of the rows by descending absolute value of the `Edge` column
that happens to keep ties in the original row order.  `sort_values` runs with
its default `kind='quicksort'`, which pandas documents as not stable, so the
program guarantees only that the result is some permutation of the rows in
descending `|Edge|` order; the tie order of this function is a model choice,
and `computeModelRel` below states the contract without it. -/
def sortByAbsEdge : List ScoredRow → List ScoredRow
  | [] => []
  | a :: l => insDesc a (sortByAbsEdge l)

/-- Model of `df["Rk"] = range(1, len(df) + 1)`: attach ranks positionally. -/
def assignRk (n : ℕ) : List ScoredRow → List (ℕ × ScoredRow)
  | [] => []
  | a :: l => (n, a) :: assignRk (n + 1) l

/-- The column name whose lookup fails first when `results` is empty: with a
toggle set the filter line touches the route-share column, otherwise the sort
line touches the edge column. -/
def missingColumn (g : Globals) : String :=
  if g.qualified_toggle_35 ∨ g.qualified_toggle_20 then "Route (%)" else "Edge"

/-- The whole of `compute_model` from `src/Inputs/app.py`.  When no row
survives the eligibility filter, `pd.DataFrame([])` has no columns, so the
first column subscript (`df["Route (%)"]` under a toggle, else `df["Edge"]`)
raises a `KeyError`; this is modelled by `Except.error`.  Otherwise the frame
is filtered by the module-level toggles, reindexed by descending `|Edge|`, and
given ranks `1..N`. -/
def computeModelInputs (wr : List WRRow) (defs : List (String × DefenseProfile))
    (cfg : ModelConfig) (g : Globals) : Except String (List (ℕ × ScoredRow)) :=
  let results := scoreLoop defs cfg g wr
  if results.isEmpty then
    Except.error (missingColumn g)
  else
    Except.ok (assignRk 1 (sortByAbsEdge (qualifiedFilter g results)))

/-! ### Basic lemmas about the clamp and the regression helper -/

theorem clip_le_hi (x lo hi : ℚ) : clip x lo hi ≤ hi := min_le_right _ _

theorem lo_le_clip (x lo hi : ℚ) (h : lo ≤ hi) : lo ≤ clip x lo hi :=
  le_min (le_max_right _ _) h

theorem regressedSplit_lower (base routes : ℚ) (split : Option ℚ) :
    (0.6 : ℚ) ≤ regressedSplit base routes split := by
  unfold regressedSplit
  exact lo_le_clip _ _ _ (by norm_num)

theorem regressedSplit_upper (base routes : ℚ) (split : Option ℚ) :
    regressedSplit base routes split ≤ (1.6 : ℚ) := by
  unfold regressedSplit
  exact clip_le_hi _ _ _

theorem regressedSplit_none (base routes : ℚ) (hb : base ≠ 0)
    (hr : routes + 20 ≠ 0) : regressedSplit base routes none = 1 := by
  have h1 : (base * routes + base * 20) / (routes + 20) / base = 1 := by
    field_simp
    ring
  simp only [regressedSplit, Option.getD_none]
  rw [h1]
  norm_num [clip]

/-! ### Concrete tables used to instantiate theorems -/

/-- Team code of the concrete opponent defense. -/
def teamD : String := "DDD"

/-- A concrete well-formed defense profile (fractions; coverage sums to 1,
safety shells sum to 1). -/
def defD : DefenseProfile := ⟨0.6, 0.4, 0.3, 0.3, 0.4, 0.2⟩

/-- The source-default configuration of `compute_model`. -/
def cfgW : ModelConfig := ⟨0.6, 2, 30, 5, 0.25⟩

/-- A malformed configuration: the zero-confidence threshold (30) is above the
full-confidence threshold (5). -/
def cfgBad : ModelConfig := ⟨0.6, 2, 5, 30, 0.25⟩

/-- Module state with both toggles off and league averages equal to `defD`. -/
def gW : Globals := ⟨false, false, 0.6, 0.4, 0.3, 0.3, 0.4⟩

/-- A concrete receiver row with every situational split missing. -/
def wrA : WRRow := ⟨"Alpha", "AAA", some teamD, 2, 80, none, none, none, none, none, none, some 40⟩

/-- The defense table holding only `defD`. -/
def defsW : List (String × DefenseProfile) := [(teamD, defD)]

/-! ### Claim C10 -/

/-- Claim C10: for every eligible receiver row (`base_yprr ≥ 0.4`,
`routes_played > 0`) and every situational split value, observed or missing,
the regressed ratio returned by `regressed_ratio` lies in `[0.6, 1.6]`. -/
theorem regressedSplit_bounds (base routes : ℚ) (split : Option ℚ)
    (hb : (0.4 : ℚ) ≤ base) (hr : 0 < routes) :
    (0.6 : ℚ) ≤ regressedSplit base routes split ∧
      regressedSplit base routes split ≤ (1.6 : ℚ) :=
  ⟨regressedSplit_lower base routes split, regressedSplit_upper base routes split⟩

/-- Claim C10 witness: instantiation at base 1, routes 10, extreme split 100. -/
theorem regressedSplit_bounds_w :
    (0.4 : ℚ) ≤ 1 ∧ (0 : ℚ) < 10 ∧
      ((0.6 : ℚ) ≤ regressedSplit 1 10 (some 100) ∧
        regressedSplit 1 10 (some 100) ≤ (1.6 : ℚ)) :=
  ⟨by norm_num, by norm_num,
    regressedSplit_bounds 1 10 (some 100) (by norm_num) (by norm_num)⟩

/-! ### Claim C4 -/

/-- Claim C4: with a well-formed threshold pair, the penalty is 0 at or above
`start_penalty`, `max_penalty` at or below `end_penalty`, the polynomial ramp
strictly between them, and the stored edge equals the pre-penalty edge score
multiplied by `1 - penalty` (rounded to one decimal for display). -/
theorem penalty_and_final_edge (cfg : ModelConfig) (g : Globals) (d : DefenseProfile)
    (opp : String) (r : WRRow) (h : cfg.end_penalty < cfg.start_penalty) :
    (cfg.start_penalty ≤ r.route_share.getD 0 →
      routeSharePenalty cfg (r.route_share.getD 0) = 0) ∧
    (r.route_share.getD 0 ≤ cfg.end_penalty →
      routeSharePenalty cfg (r.route_share.getD 0) = cfg.max_penalty) ∧
    (cfg.end_penalty < r.route_share.getD 0 → r.route_share.getD 0 < cfg.start_penalty →
      routeSharePenalty cfg (r.route_share.getD 0) =
        cfg.max_penalty * ((cfg.start_penalty - r.route_share.getD 0) /
          (cfg.start_penalty - cfg.end_penalty)) ^ cfg.exponent) ∧
    (scoreRow cfg g d opp r).edge =
      pyround (edgeScorePre cfg g d r * (1 - routeSharePenalty cfg (r.route_share.getD 0))) 1 := by
  refine ⟨?_, ?_, ?_, rfl⟩
  · intro hrs
    rw [routeSharePenalty, if_pos hrs]
  · intro hrs
    rw [routeSharePenalty, if_neg (not_le.mpr (lt_of_le_of_lt hrs h)), if_pos hrs]
  · intro hlo hhi
    rw [routeSharePenalty, if_neg (not_le.mpr hhi), if_neg (not_le.mpr hlo)]

/-- Claim C4 witness: instantiation at the default configuration and the
all-splits-missing row with route share 40. -/
theorem penalty_and_final_edge_w :
    cfgW.end_penalty < cfgW.start_penalty ∧
    ((cfgW.start_penalty ≤ wrA.route_share.getD 0 →
      routeSharePenalty cfgW (wrA.route_share.getD 0) = 0) ∧
    (wrA.route_share.getD 0 ≤ cfgW.end_penalty →
      routeSharePenalty cfgW (wrA.route_share.getD 0) = cfgW.max_penalty) ∧
    (cfgW.end_penalty < wrA.route_share.getD 0 → wrA.route_share.getD 0 < cfgW.start_penalty →
      routeSharePenalty cfgW (wrA.route_share.getD 0) =
        cfgW.max_penalty * ((cfgW.start_penalty - wrA.route_share.getD 0) /
          (cfgW.start_penalty - cfgW.end_penalty)) ^ cfgW.exponent) ∧
    (scoreRow cfgW gW defD teamD wrA).edge =
      pyround (edgeScorePre cfgW gW defD wrA *
        (1 - routeSharePenalty cfgW (wrA.route_share.getD 0))) 1) :=
  ⟨by norm_num [cfgW],
    penalty_and_final_edge cfgW gW defD teamD wrA (by norm_num [cfgW])⟩

/-! ### Claim C9 (amended part) -/

/-- Claim C9 (amended): `compute_model` performs no configuration validation.
When `end_penalty` is at or above `start_penalty` the polynomial ramp is
unreachable and the penalty silently degenerates to a two-level step: 0 at or
above `start_penalty`, otherwise `max_penalty`. -/
theorem penalty_no_validation (cfg : ModelConfig)
    (h : cfg.start_penalty ≤ cfg.end_penalty) (rs : ℚ) :
    routeSharePenalty cfg rs = if cfg.start_penalty ≤ rs then 0 else cfg.max_penalty := by
  by_cases hrs : cfg.start_penalty ≤ rs
  · rw [routeSharePenalty, if_pos hrs, if_pos hrs]
  · rw [routeSharePenalty, if_neg hrs, if_neg hrs,
      if_pos (le_of_lt (lt_of_lt_of_le (not_le.mp hrs) h))]

/-- Claim C9 amended-theorem witness: the malformed configuration with
`start_penalty = 5, end_penalty = 30` at route share 10. -/
theorem penalty_no_validation_w :
    cfgBad.start_penalty ≤ cfgBad.end_penalty ∧
      routeSharePenalty cfgBad 10 =
        if cfgBad.start_penalty ≤ 10 then 0 else cfgBad.max_penalty :=
  ⟨by norm_num [cfgBad], penalty_no_validation cfgBad (by norm_num [cfgBad]) 10⟩

/-! ### Claim C2 -/

theorem weightDev_sum (g : Globals) (d : DefenseProfile) :
    covWeightDev g d + safWeightDev g d = 1 := by
  by_cases h : 0 < coverageDev g d + safetyDev g d
  · rw [covWeightDev, safWeightDev, if_pos h, if_pos h, div_add_div_same,
      div_self (ne_of_gt h)]
  · rw [covWeightDev, safWeightDev, if_neg h, if_neg h]
    norm_num

/-- Core computation behind the missing-split neutrality property: with every
split missing the regressed quotients are all 1 and the score collapses to the
baseline. -/
theorem neutral_splits_core (cfg : ModelConfig) (g : Globals) (d : DefenseProfile)
    (r : WRRow)
    (hman : r.yprr_man = none) (hzone : r.yprr_zone = none)
    (h1h : r.yprr_1high = none) (h2h : r.yprr_2high = none)
    (h0h : r.yprr_0high = none) (hbl : r.yprr_blitz = none)
    (hbase : (0.4 : ℚ) ≤ r.base_yprr) (hroutes : 0 < r.routes_played)
    (hcov : totalCoverage d = 1) (hsaf : 0 < totalSafety d) :
    (hybridRat cfg g d r + ratioBlitz r) / 2 = 1 ∧
      adjustedYprr cfg g d r = r.base_yprr ∧
      edgeScorePre cfg g d r = 0 := by
  have hb0 : r.base_yprr ≠ 0 := ne_of_gt (lt_of_lt_of_le (by norm_num) hbase)
  have hr20 : r.routes_played + 20 ≠ 0 := ne_of_gt (by linarith)
  have hM : ratioMan r = 1 := by
    rw [ratioMan, hman]; exact regressedSplit_none _ _ hb0 hr20
  have hZ : ratioZone r = 1 := by
    rw [ratioZone, hzone]; exact regressedSplit_none _ _ hb0 hr20
  have hO : ratioOneHigh r = 1 := by
    rw [ratioOneHigh, h1h]; exact regressedSplit_none _ _ hb0 hr20
  have hT : ratioTwoHigh r = 1 := by
    rw [ratioTwoHigh, h2h]; exact regressedSplit_none _ _ hb0 hr20
  have hZe : ratioZeroHigh r = 1 := by
    rw [ratioZeroHigh, h0h]; exact regressedSplit_none _ _ hb0 hr20
  have hBl : ratioBlitz r = 1 := by
    rw [ratioBlitz, hbl]; exact regressedSplit_none _ _ hb0 hr20
  have hcc : coverageComponent d r = 1 := by
    rw [coverageComponent, hM, hZ, mul_one, mul_one]
    exact hcov
  have hsr : safetyComponentRaw d r = totalSafety d := by
    rw [safetyComponentRaw, hO, hT, hZe, mul_one, mul_one, mul_one]
    rfl
  have hsc : safetyComponent d r = 1 := by
    rw [safetyComponent, if_pos hsaf, hsr, div_self (ne_of_gt hsaf)]
  have hA : systemA d r = 1 := by
    rw [systemA, if_pos (by rw [totalCoverage] at hcov ⊢; rw [hcov]; linarith),
      hcc, hsc, hcov, one_mul, one_mul]
    exact div_self (by linarith)
  have hB : systemB g d r = 1 := by
    rw [systemB, hcc, hsc, one_mul, one_mul, weightDev_sum]
  have hH : hybridRat cfg g d r = 1 := by
    rw [hybridRat, hA, hB, one_mul, one_mul]
    ring
  have hexp : (hybridRat cfg g d r + ratioBlitz r) / 2 = 1 := by
    rw [hH, hBl]
    norm_num
  have hadj : adjustedYprr cfg g d r = r.base_yprr := by
    rw [adjustedYprr, hexp, mul_one]
  refine ⟨hexp, hadj, ?_⟩
  rw [edgeScorePre, rawEdge, hadj, sub_self, zero_div, zero_mul]

/-- Claim C2: for an eligible row whose six situational splits are all
missing, each split is substituted by the row's own `base_yprr`, so the
expected performance quotient `(final_ratio + blitz_ratio) / 2` is exactly 1,
the adjusted efficiency equals `base_yprr`, and the pre-penalty edge score is
0.  The defense hypotheses are the DefenseProfile well-formedness conditions
(`man_pct + zone_pct = 1`, positive safety-shell total). -/
theorem missing_splits_neutral (cfg : ModelConfig) (g : Globals) (d : DefenseProfile)
    (r : WRRow)
    (hman : r.yprr_man = none) (hzone : r.yprr_zone = none)
    (h1h : r.yprr_1high = none) (h2h : r.yprr_2high = none)
    (h0h : r.yprr_0high = none) (hbl : r.yprr_blitz = none)
    (hbase : (0.4 : ℚ) ≤ r.base_yprr) (hroutes : 0 < r.routes_played)
    (hcov : totalCoverage d = 1) (hsaf : 0 < totalSafety d) :
    (hybridRat cfg g d r + ratioBlitz r) / 2 = 1 ∧
      adjustedYprr cfg g d r = r.base_yprr ∧
      edgeScorePre cfg g d r = 0 :=
  neutral_splits_core cfg g d r hman hzone h1h h2h h0h hbl hbase hroutes hcov hsaf

/-- Claim C2 witness: the all-splits-missing row `wrA` against the concrete
defense `defD`. -/
theorem missing_splits_neutral_w :
    (0.4 : ℚ) ≤ wrA.base_yprr ∧ 0 < wrA.routes_played ∧
      totalCoverage defD = 1 ∧ 0 < totalSafety defD ∧
      ((hybridRat cfgW gW defD wrA + ratioBlitz wrA) / 2 = 1 ∧
        adjustedYprr cfgW gW defD wrA = wrA.base_yprr ∧
        edgeScorePre cfgW gW defD wrA = 0) :=
  ⟨by norm_num [wrA], by norm_num [wrA], by norm_num [totalCoverage, defD],
    by norm_num [totalSafety, defD],
    missing_splits_neutral cfgW gW defD wrA rfl rfl rfl rfl rfl rfl
      (by norm_num [wrA]) (by norm_num [wrA])
      (by norm_num [totalCoverage, defD]) (by norm_num [totalSafety, defD])⟩

/-! ### Claim C3 -/

/-- A concrete eligible row whose six splits are all far above its base, so
every regressed split clamps to 1.6. -/
def wrC : WRRow := ⟨"Gamma", "CCC", some teamD, 1, 20, some 3, some 3, some 3,
  some 3, some 3, some 3, some 40⟩

/-- Claim C3 counterexample: at row `wrC` against `defD` the raw edge is 0.6,
outside the claimed clamp interval `[-0.25, 0.25]`, and the pre-penalty edge
score is `raw_edge * 100 = 60`, not `raw_edge / 0.25 * 100`. -/
theorem edge_clamp_cex :
    rawEdge cfgW gW defD wrC = 3/5 ∧
      ¬(|rawEdge cfgW gW defD wrC| ≤ 1/4) ∧
      edgeScorePre cfgW gW defD wrC = 60 ∧
      (60 : ℚ) ≠ (3/5) / (1/4) * 100 := by
  have hr : regressedSplit 1 20 (some 3) = 8/5 := by
    norm_num [regressedSplit, clip, min_def, max_def]
  have hMm : ratioMan wrC = 8/5 := hr
  have hZz : ratioZone wrC = 8/5 := hr
  have hOo : ratioOneHigh wrC = 8/5 := hr
  have hTt : ratioTwoHigh wrC = 8/5 := hr
  have hEe : ratioZeroHigh wrC = 8/5 := hr
  have hBb : ratioBlitz wrC = 8/5 := hr
  have hcc : coverageComponent defD wrC = 8/5 := by
    rw [coverageComponent, hMm, hZz]
    norm_num [defD]
  have hsr : safetyComponentRaw defD wrC = 8/5 := by
    rw [safetyComponentRaw, hOo, hTt, hEe]
    norm_num [defD]
  have hts : totalSafety defD = 1 := by norm_num [totalSafety, defD]
  have htc : totalCoverage defD = 1 := by norm_num [totalCoverage, defD]
  have hsc : safetyComponent defD wrC = 8/5 := by
    rw [safetyComponent, if_pos (by rw [hts]; norm_num), hsr, hts]
    norm_num
  have hA : systemA defD wrC = 8/5 := by
    rw [systemA, if_pos (by rw [htc, hts]; norm_num), hcc, hsc, htc, hts]
    norm_num
  have hcd : coverageDev gW defD = 0 := by norm_num [coverageDev, gW, defD]
  have hsd : safetyDev gW defD = 0 := by norm_num [safetyDev, gW, defD]
  have hwc : covWeightDev gW defD = 1/2 := by
    rw [covWeightDev, hcd, hsd]
    norm_num
  have hws : safWeightDev gW defD = 1/2 := by
    rw [safWeightDev, hcd, hsd]
    norm_num
  have hBsys : systemB gW defD wrC = 8/5 := by
    rw [systemB, hcc, hsc, hwc, hws]
    norm_num
  have hH : hybridRat cfgW gW defD wrC = 8/5 := by
    rw [hybridRat, hA, hBsys]
    norm_num [cfgW]
  have hadj : adjustedYprr cfgW gW defD wrC = 8/5 := by
    rw [adjustedYprr, hH, hBb]
    norm_num [wrC]
  have hcore : rawEdge cfgW gW defD wrC = 3/5 := by
    rw [rawEdge, hadj]
    norm_num [wrC]
  refine ⟨hcore, ?_, ?_, by norm_num⟩
  · rw [hcore, abs_of_nonneg (by norm_num : (0:ℚ) ≤ 3/5)]
    norm_num
  · rw [edgeScorePre, hcore]
    norm_num

theorem covWeightDev_nonneg (g : Globals) (d : DefenseProfile) :
    0 ≤ covWeightDev g d := by
  by_cases h : 0 < coverageDev g d + safetyDev g d
  · rw [covWeightDev, if_pos h]
    exact div_nonneg (by simp only [coverageDev]; positivity) (le_of_lt h)
  · rw [covWeightDev, if_neg h]
    norm_num

theorem safWeightDev_nonneg (g : Globals) (d : DefenseProfile) :
    0 ≤ safWeightDev g d := by
  by_cases h : 0 < coverageDev g d + safetyDev g d
  · rw [safWeightDev, if_pos h]
    exact div_nonneg (by simp only [safetyDev]; positivity) (le_of_lt h)
  · rw [safWeightDev, if_neg h]
    norm_num

/-- Claim C3 (amended): no clamp is applied — the pre-penalty edge score is
exactly `raw_edge * 100` (source comment `# NO CAP`) — and for a well-formed
defense profile the clamped situational quotients still confine the raw edge
to `[-0.4, 0.6]` and the pre-penalty edge score to `[-40, 60]`; the raw edge
is not confined to `[-0.25, 0.25]`. -/
theorem edge_score_no_cap (cfg : ModelConfig) (g : Globals) (d : DefenseProfile)
    (r : WRRow)
    (hm : 0 ≤ d.man_pct) (hz : 0 ≤ d.zone_pct) (hcov : totalCoverage d = 1)
    (h1 : 0 ≤ d.onehigh_pct) (h2 : 0 ≤ d.twohigh_pct) (h0 : 0 ≤ d.zerohigh_pct)
    (hsaf : 0 < totalSafety d)
    (hdb : 0 ≤ cfg.deviation_boost) (hdb1 : cfg.deviation_boost ≤ 1)
    (hbase : (0.4 : ℚ) ≤ r.base_yprr) :
    edgeScorePre cfg g d r = rawEdge cfg g d r * 100 ∧
      -(0.4 : ℚ) ≤ rawEdge cfg g d r ∧ rawEdge cfg g d r ≤ (0.6 : ℚ) ∧
      |edgeScorePre cfg g d r| ≤ 60 := by
  have hb0 : r.base_yprr ≠ 0 := ne_of_gt (lt_of_lt_of_le (by norm_num) hbase)
  have hMl := regressedSplit_lower r.base_yprr r.routes_played r.yprr_man
  have hMu := regressedSplit_upper r.base_yprr r.routes_played r.yprr_man
  have hZl := regressedSplit_lower r.base_yprr r.routes_played r.yprr_zone
  have hZu := regressedSplit_upper r.base_yprr r.routes_played r.yprr_zone
  have hOl := regressedSplit_lower r.base_yprr r.routes_played r.yprr_1high
  have hOu := regressedSplit_upper r.base_yprr r.routes_played r.yprr_1high
  have hTl := regressedSplit_lower r.base_yprr r.routes_played r.yprr_2high
  have hTu := regressedSplit_upper r.base_yprr r.routes_played r.yprr_2high
  have hEl := regressedSplit_lower r.base_yprr r.routes_played r.yprr_0high
  have hEu := regressedSplit_upper r.base_yprr r.routes_played r.yprr_0high
  have hBl := regressedSplit_lower r.base_yprr r.routes_played r.yprr_blitz
  have hBu := regressedSplit_upper r.base_yprr r.routes_played r.yprr_blitz
  have hcovs : d.man_pct + d.zone_pct = 1 := hcov
  have hccl : (0.6 : ℚ) ≤ coverageComponent d r := by
    have t1 := mul_le_mul_of_nonneg_left hMl hm
    have t2 := mul_le_mul_of_nonneg_left hZl hz
    rw [coverageComponent, ratioMan, ratioZone]
    linarith
  have hccu : coverageComponent d r ≤ (1.6 : ℚ) := by
    have t1 := mul_le_mul_of_nonneg_left hMu hm
    have t2 := mul_le_mul_of_nonneg_left hZu hz
    rw [coverageComponent, ratioMan, ratioZone]
    linarith
  have hts : d.onehigh_pct + d.twohigh_pct + d.zerohigh_pct = totalSafety d := rfl
  have hsrl : (0.6 : ℚ) * totalSafety d ≤ safetyComponentRaw d r := by
    have t1 := mul_le_mul_of_nonneg_left hOl h1
    have t2 := mul_le_mul_of_nonneg_left hTl h2
    have t3 := mul_le_mul_of_nonneg_left hEl h0
    rw [safetyComponentRaw, ratioOneHigh, ratioTwoHigh, ratioZeroHigh]
    rw [← hts]
    linarith
  have hsru : safetyComponentRaw d r ≤ (1.6 : ℚ) * totalSafety d := by
    have t1 := mul_le_mul_of_nonneg_left hOu h1
    have t2 := mul_le_mul_of_nonneg_left hTu h2
    have t3 := mul_le_mul_of_nonneg_left hEu h0
    rw [safetyComponentRaw, ratioOneHigh, ratioTwoHigh, ratioZeroHigh]
    rw [← hts]
    linarith
  have hscl : (0.6 : ℚ) ≤ safetyComponent d r := by
    rw [safetyComponent, if_pos hsaf, le_div_iff₀ hsaf]
    linarith
  have hscu : safetyComponent d r ≤ (1.6 : ℚ) := by
    rw [safetyComponent, if_pos hsaf, div_le_iff₀ hsaf]
    linarith
  have hApos : 0 < totalCoverage d + totalSafety d := by
    rw [hcov]
    linarith
  have hAl : (0.6 : ℚ) ≤ systemA d r := by
    rw [systemA, if_pos hApos, le_div_iff₀ hApos, hcov]
    have t1 := mul_le_mul_of_nonneg_right hscl (le_of_lt hsaf)
    linarith
  have hAu : systemA d r ≤ (1.6 : ℚ) := by
    rw [systemA, if_pos hApos, div_le_iff₀ hApos, hcov]
    have t1 := mul_le_mul_of_nonneg_right hscu (le_of_lt hsaf)
    linarith
  have hwsum := weightDev_sum g d
  have hwc := covWeightDev_nonneg g d
  have hws := safWeightDev_nonneg g d
  have hBl2 : (0.6 : ℚ) ≤ systemB g d r := by
    have t1 := mul_le_mul_of_nonneg_right hccl hwc
    have t2 := mul_le_mul_of_nonneg_right hscl hws
    rw [systemB]
    linarith
  have hBu2 : systemB g d r ≤ (1.6 : ℚ) := by
    have t1 := mul_le_mul_of_nonneg_right hccu hwc
    have t2 := mul_le_mul_of_nonneg_right hscu hws
    rw [systemB]
    linarith
  have hHl : (0.6 : ℚ) ≤ hybridRat cfg g d r := by
    have t1 := mul_le_mul_of_nonneg_right hAl (by linarith : (0:ℚ) ≤ 1 - cfg.deviation_boost)
    have t2 := mul_le_mul_of_nonneg_right hBl2 hdb
    rw [hybridRat]
    linarith
  have hHu : hybridRat cfg g d r ≤ (1.6 : ℚ) := by
    have t1 := mul_le_mul_of_nonneg_right hAu (by linarith : (0:ℚ) ≤ 1 - cfg.deviation_boost)
    have t2 := mul_le_mul_of_nonneg_right hBu2 hdb
    rw [hybridRat]
    linarith
  have hre : rawEdge cfg g d r = (hybridRat cfg g d r + ratioBlitz r) / 2 - 1 := by
    rw [rawEdge, adjustedYprr]
    field_simp
    ring
  have hBll : (0.6 : ℚ) ≤ ratioBlitz r := by rw [ratioBlitz]; exact hBl
  have hBuu : ratioBlitz r ≤ (1.6 : ℚ) := by rw [ratioBlitz]; exact hBu
  refine ⟨rfl, ?_, ?_, ?_⟩
  · rw [hre]; linarith
  · rw [hre]; linarith
  · rw [edgeScorePre, abs_le]
    constructor
    · rw [hre]; linarith
    · rw [hre]; linarith

/-- Claim C3 amended-theorem witness: the all-splits-missing row `wrA` against
`defD` with the default configuration. -/
theorem edge_score_no_cap_w :
    0 ≤ defD.man_pct ∧ totalCoverage defD = 1 ∧ 0 < totalSafety defD ∧
      cfgW.deviation_boost ≤ 1 ∧ (0.4 : ℚ) ≤ wrA.base_yprr ∧
      (edgeScorePre cfgW gW defD wrA = rawEdge cfgW gW defD wrA * 100 ∧
        -(0.4 : ℚ) ≤ rawEdge cfgW gW defD wrA ∧
        rawEdge cfgW gW defD wrA ≤ (0.6 : ℚ) ∧
        |edgeScorePre cfgW gW defD wrA| ≤ 60) :=
  ⟨by norm_num [defD], by norm_num [totalCoverage, defD],
    by norm_num [totalSafety, defD], by norm_num [cfgW], by norm_num [wrA],
    edge_score_no_cap cfgW gW defD wrA (by norm_num [defD]) (by norm_num [defD])
      (by norm_num [totalCoverage, defD]) (by norm_num [defD]) (by norm_num [defD])
      (by norm_num [defD]) (by norm_num [totalSafety, defD])
      (by norm_num [cfgW]) (by norm_num [cfgW]) (by norm_num [wrA])⟩

/-! ### Evaluation helpers for concrete instantiations -/

theorem roundHE_intCast (m : ℤ) : roundHE (m : ℚ) = m := by
  norm_num [roundHE]

theorem pyround_zero (n : ℕ) : pyround 0 n = 0 := by
  have h : ((0 : ℤ) : ℚ) = 0 := by norm_num
  rw [pyround, zero_mul, ← h, roundHE_intCast, h, zero_div]

theorem pyround_two : pyround (2 : ℚ) 2 = 2 := by
  have h : (2 : ℚ) * 10 ^ 2 = ((200 : ℤ) : ℚ) := by norm_num
  rw [pyround, h, roundHE_intCast]
  norm_num

/-- A neutral row (all splits missing, well-formed defense) is output with the
baseline efficiency and a zero edge in every edge column. -/
theorem scoreRow_neutral (cfg : ModelConfig) (g : Globals) (d : DefenseProfile)
    (opp : String) (r : WRRow)
    (hman : r.yprr_man = none) (hzone : r.yprr_zone = none)
    (h1h : r.yprr_1high = none) (h2h : r.yprr_2high = none)
    (h0h : r.yprr_0high = none) (hbl : r.yprr_blitz = none)
    (hbase : (0.4 : ℚ) ≤ r.base_yprr) (hroutes : 0 < r.routes_played)
    (hcov : totalCoverage d = 1) (hsaf : 0 < totalSafety d) :
    scoreRow cfg g d opp r = ⟨r.player, r.team, opp, r.route_share.getD 0,
      pyround r.base_yprr 2, pyround r.base_yprr 2, 0, 0, 0⟩ := by
  obtain ⟨-, hadj, hpre⟩ :=
    neutral_splits_core cfg g d r hman hzone h1h h2h h0h hbl hbase hroutes hcov hsaf
  have hfin : edgeScoreFinal cfg g d r = 0 := by
    rw [edgeScoreFinal, hpre, zero_mul]
  rw [scoreRow, hadj, hfin, zero_mul, zero_mul, pyround_zero]

/-- The scored output row of `wrA`. -/
def sA : ScoredRow := ⟨"Alpha", "AAA", teamD, 40, 2, 2, 0, 0, 0⟩

/-- A second all-splits-missing receiver row with route share 25 (below the
35% toggle threshold). -/
def wrB : WRRow := ⟨"Beta", "BBB", some teamD, 2, 80, none, none, none, none,
  none, none, some 25⟩

/-- The scored output row of `wrB`. -/
def sB : ScoredRow := ⟨"Beta", "BBB", teamD, 25, 2, 2, 0, 0, 0⟩

/-- Module state identical to `gW` except that the 35% route-share toggle is
switched on. -/
def gT35 : Globals := ⟨true, false, 0.6, 0.4, 0.3, 0.3, 0.4⟩

theorem evalRowA : scoreRow cfgW gW defD teamD wrA = sA := by
  rw [scoreRow_neutral cfgW gW defD teamD wrA rfl rfl rfl rfl rfl rfl
    (by norm_num [wrA]) (by norm_num [wrA]) (by norm_num [totalCoverage, defD])
    (by norm_num [totalSafety, defD])]
  simp only [wrA, sA, pyround_two, Option.getD_some]

theorem evalRowA_bad : scoreRow cfgBad gW defD teamD wrA = sA := by
  rw [scoreRow_neutral cfgBad gW defD teamD wrA rfl rfl rfl rfl rfl rfl
    (by norm_num [wrA]) (by norm_num [wrA]) (by norm_num [totalCoverage, defD])
    (by norm_num [totalSafety, defD])]
  simp only [wrA, sA, pyround_two, Option.getD_some]

theorem evalRowB : scoreRow cfgW gW defD teamD wrB = sB := by
  rw [scoreRow_neutral cfgW gW defD teamD wrB rfl rfl rfl rfl rfl rfl
    (by norm_num [wrB]) (by norm_num [wrB]) (by norm_num [totalCoverage, defD])
    (by norm_num [totalSafety, defD])]
  simp only [wrB, sB, pyround_two, Option.getD_some]

theorem evalRowB_t35 : scoreRow cfgW gT35 defD teamD wrB = sB := by
  rw [scoreRow_neutral cfgW gT35 defD teamD wrB rfl rfl rfl rfl rfl rfl
    (by norm_num [wrB]) (by norm_num [wrB]) (by norm_num [totalCoverage, defD])
    (by norm_num [totalSafety, defD])]
  simp only [wrB, sB, pyround_two, Option.getD_some]

/-- Unfolding of the row loop at an eligible row with a resolvable opponent. -/
theorem scoreLoop_cons_hit (defs : List (String × DefenseProfile)) (cfg : ModelConfig)
    (g : Globals) (r : WRRow) (rest : List WRRow) (o : String) (d : DefenseProfile)
    (hc : ¬(r.base_yprr < 0.4 ∨ r.routes_played ≤ 0)) (ho : r.opponent = some o)
    (hd : List.lookup o defs = some d) :
    scoreLoop defs cfg g (r :: rest) = scoreRow cfg g d o r :: scoreLoop defs cfg g rest := by
  rw [scoreLoop, if_neg hc, ho, Option.elim_some, hd, Option.elim_some]

theorem evalLoopA : scoreLoop defsW cfgW gW [wrA] = [sA] := by
  rw [scoreLoop_cons_hit defsW cfgW gW wrA [] teamD defD (by norm_num [wrA]) rfl rfl,
    evalRowA]
  rfl

theorem evalLoopA_bad : scoreLoop defsW cfgBad gW [wrA] = [sA] := by
  rw [scoreLoop_cons_hit defsW cfgBad gW wrA [] teamD defD (by norm_num [wrA]) rfl rfl,
    evalRowA_bad]
  rfl

theorem evalLoopB : scoreLoop defsW cfgW gW [wrB] = [sB] := by
  rw [scoreLoop_cons_hit defsW cfgW gW wrB [] teamD defD (by norm_num [wrB]) rfl rfl,
    evalRowB]
  rfl

theorem evalLoopB_t35 : scoreLoop defsW cfgW gT35 [wrB] = [sB] := by
  rw [scoreLoop_cons_hit defsW cfgW gT35 wrB [] teamD defD (by norm_num [wrB]) rfl rfl,
    evalRowB_t35]
  rfl

theorem evalModelA : computeModelInputs [wrA] defsW cfgW gW = Except.ok [(1, sA)] := by
  simp only [computeModelInputs]
  rw [evalLoopA]
  norm_num [qualifiedFilter, gW, sortByAbsEdge, insDesc, assignRk]

theorem evalModelA_bad :
    computeModelInputs [wrA] defsW cfgBad gW = Except.ok [(1, sA)] := by
  simp only [computeModelInputs]
  rw [evalLoopA_bad]
  norm_num [qualifiedFilter, gW, sortByAbsEdge, insDesc, assignRk]

theorem evalModelB : computeModelInputs [wrB] defsW cfgW gW = Except.ok [(1, sB)] := by
  simp only [computeModelInputs]
  rw [evalLoopB]
  norm_num [qualifiedFilter, gW, sortByAbsEdge, insDesc, assignRk]

theorem evalModelB_t35 : computeModelInputs [wrB] defsW cfgW gT35 = Except.ok [] := by
  have hfil : qualifiedFilter gT35 [sB] = [] := by
    norm_num [qualifiedFilter, gT35, sB, List.filter]
  simp only [computeModelInputs]
  rw [evalLoopB_t35]
  norm_num [hfil, sortByAbsEdge, assignRk]

/-! ### Structural lemmas about the filter, sort and rank stages -/

theorem mem_insDesc (a x : ScoredRow) (l : List ScoredRow) :
    x ∈ insDesc a l ↔ x = a ∨ x ∈ l := by
  induction l with
  | nil => simp [insDesc]
  | cons b t ih =>
    rw [insDesc]
    by_cases h : |a.edge| < |b.edge|
    · rw [if_pos h]
      simp only [List.mem_cons, ih]
      tauto
    · rw [if_neg h]
      simp only [List.mem_cons]

theorem mem_sortByAbsEdge (x : ScoredRow) (l : List ScoredRow) :
    x ∈ sortByAbsEdge l ↔ x ∈ l := by
  induction l with
  | nil => simp [sortByAbsEdge]
  | cons a t ih =>
    rw [sortByAbsEdge, mem_insDesc]
    simp [ih]

theorem mem_assignRk (p : ℕ × ScoredRow) (n : ℕ) (l : List ScoredRow)
    (h : p ∈ assignRk n l) : p.2 ∈ l := by
  induction l generalizing n with
  | nil => simp [assignRk] at h
  | cons a t ih =>
    rw [assignRk] at h
    rcases List.mem_cons.mp h with h1 | h2
    · rw [h1]
      exact List.mem_cons_self a t
    · exact List.mem_cons_of_mem a (ih _ h2)

theorem mem_qualifiedFilter (g : Globals) (x : ScoredRow) (l : List ScoredRow)
    (h : x ∈ qualifiedFilter g l) : x ∈ l := by
  rw [qualifiedFilter] at h
  by_cases h35 : g.qualified_toggle_35
  · rw [if_pos h35] at h
    exact List.mem_of_mem_filter h
  · rw [if_neg h35] at h
    by_cases h20 : g.qualified_toggle_20
    · rw [if_pos h20] at h
      exact List.mem_of_mem_filter h
    · rwa [if_neg h20] at h

theorem mem_scoreLoop (defs : List (String × DefenseProfile)) (cfg : ModelConfig)
    (g : Globals) (s : ScoredRow) (wr : List WRRow) (hs : s ∈ scoreLoop defs cfg g wr) :
    ∃ r ∈ wr, ¬(r.base_yprr < 0.4 ∨ r.routes_played ≤ 0) ∧
      ∃ o d, r.opponent = some o ∧ List.lookup o defs = some d ∧
        s = scoreRow cfg g d o r := by
  induction wr with
  | nil => simp [scoreLoop] at hs
  | cons r rest ih =>
    rw [scoreLoop] at hs
    by_cases he : r.base_yprr < 0.4 ∨ r.routes_played ≤ 0
    · rw [if_pos he] at hs
      obtain ⟨r', hr', h'⟩ := ih hs
      exact ⟨r', List.mem_cons_of_mem r hr', h'⟩
    · rw [if_neg he] at hs
      cases ho : r.opponent with
      | none =>
        rw [ho, Option.elim_none] at hs
        obtain ⟨r', hr', h'⟩ := ih hs
        exact ⟨r', List.mem_cons_of_mem r hr', h'⟩
      | some o =>
        rw [ho, Option.elim_some] at hs
        cases hd : List.lookup o defs with
        | none =>
          rw [hd, Option.elim_none] at hs
          obtain ⟨r', hr', h'⟩ := ih hs
          exact ⟨r', List.mem_cons_of_mem r hr', h'⟩
        | some d =>
          rw [hd, Option.elim_some] at hs
          rcases List.mem_cons.mp hs with h1 | h2
          · exact ⟨r, List.mem_cons_self r rest, he, o, d, ho, hd, h1⟩
          · obtain ⟨r', hr', h'⟩ := ih h2
            exact ⟨r', List.mem_cons_of_mem r hr', h'⟩

theorem computeModelInputs_ok (wr : List WRRow) (defs : List (String × DefenseProfile))
    (cfg : ModelConfig) (g : Globals) (out : List (ℕ × ScoredRow))
    (hok : computeModelInputs wr defs cfg g = Except.ok out) :
    out = assignRk 1 (sortByAbsEdge (qualifiedFilter g (scoreLoop defs cfg g wr))) := by
  simp only [computeModelInputs] at hok
  by_cases h : (scoreLoop defs cfg g wr).isEmpty
  · rw [if_pos h] at hok
    simp at hok
  · rw [if_neg h] at hok
    exact (Except.ok.inj hok).symm

/-! ### Claim C1 -/

/-- Claim C1: every row of a successful output originates from an input row
with strictly positive `base_yprr` (indeed at least the 0.4 floor), strictly
positive `routes_played`, and an opponent code that resolved in the defense
table; an input row failing any of these conditions contributes no output
row. -/
theorem output_rows_eligible (wr : List WRRow) (defs : List (String × DefenseProfile))
    (cfg : ModelConfig) (g : Globals) (out : List (ℕ × ScoredRow)) (p : ℕ × ScoredRow)
    (hok : computeModelInputs wr defs cfg g = Except.ok out) (hp : p ∈ out) :
    ∃ r ∈ wr, 0 < r.base_yprr ∧ 0 < r.routes_played ∧
      ∃ o d, r.opponent = some o ∧ List.lookup o defs = some d ∧
        p.2 = scoreRow cfg g d o r := by
  rw [computeModelInputs_ok wr defs cfg g out hok] at hp
  have h2 := mem_assignRk p 1 _ hp
  rw [mem_sortByAbsEdge] at h2
  have h3 := mem_qualifiedFilter g _ _ h2
  obtain ⟨r, hr, he, o, d, ho, hd, hs⟩ := mem_scoreLoop defs cfg g _ _ h3
  push_neg at he
  exact ⟨r, hr, lt_of_lt_of_le (by norm_num) he.1, he.2, o, d, ho, hd, hs⟩

/-- Claim C1 witness: the single-row table `[wrA]`, whose output row traces
back to `wrA` with positive base, positive routes and a resolved opponent. -/
theorem output_rows_eligible_w :
    ∃ r ∈ [wrA], 0 < r.base_yprr ∧ 0 < r.routes_played ∧
      ∃ o d, r.opponent = some o ∧ List.lookup o defsW = some d ∧
        (1, sA).2 = scoreRow cfgW gW d o r :=
  output_rows_eligible [wrA] defsW cfgW gW [(1, sA)] (1, sA) evalModelA
    (List.mem_singleton.mpr rfl)

/-! ### Claim C5 -/

theorem pairwise_insDesc (a : ScoredRow) (l : List ScoredRow)
    (h : l.Pairwise (fun x y => |y.edge| ≤ |x.edge|)) :
    (insDesc a l).Pairwise (fun x y => |y.edge| ≤ |x.edge|) := by
  induction l with
  | nil => simp [insDesc]
  | cons b t ih =>
    rw [List.pairwise_cons] at h
    obtain ⟨hb, ht⟩ := h
    rw [insDesc]
    by_cases hab : |a.edge| < |b.edge|
    · rw [if_pos hab, List.pairwise_cons]
      constructor
      · intro x hx
        rcases (mem_insDesc a x t).mp hx with rfl | hxl
        · exact le_of_lt hab
        · exact hb x hxl
      · exact ih ht
    · rw [if_neg hab, List.pairwise_cons]
      constructor
      · intro x hx
        rcases List.mem_cons.mp hx with rfl | hxl
        · exact not_lt.mp hab
        · exact le_trans (hb x hxl) (not_lt.mp hab)
      · exact List.pairwise_cons.mpr ⟨hb, ht⟩

theorem pairwise_sortByAbsEdge (l : List ScoredRow) :
    (sortByAbsEdge l).Pairwise (fun x y => |y.edge| ≤ |x.edge|) := by
  induction l with
  | nil => simp [sortByAbsEdge]
  | cons a t ih => exact pairwise_insDesc a _ ih

theorem insDesc_of_le (a : ScoredRow) (l : List ScoredRow)
    (h : ∀ x ∈ l, |x.edge| ≤ |a.edge|) : insDesc a l = a :: l := by
  cases l with
  | nil => rfl
  | cons b t =>
    rw [insDesc, if_neg (not_lt.mpr (h b (List.mem_cons_self b t)))]

theorem sortByAbsEdge_of_sorted (l : List ScoredRow)
    (h : l.Pairwise (fun x y => |y.edge| ≤ |x.edge|)) : sortByAbsEdge l = l := by
  induction l with
  | nil => rfl
  | cons a t ih =>
    rw [List.pairwise_cons] at h
    rw [sortByAbsEdge, ih h.2, insDesc_of_le a t h.1]

theorem length_assignRk (n : ℕ) (l : List ScoredRow) :
    (assignRk n l).length = l.length := by
  induction l generalizing n with
  | nil => rfl
  | cons a t ih => simp [assignRk, ih]

theorem map_fst_assignRk (n : ℕ) (l : List ScoredRow) :
    (assignRk n l).map Prod.fst = List.range' n l.length := by
  induction l generalizing n with
  | nil => rfl
  | cons a t ih =>
    rw [assignRk, List.map_cons, ih, List.length_cons, List.range'_succ]

theorem map_snd_assignRk (n : ℕ) (l : List ScoredRow) :
    (assignRk n l).map Prod.snd = l := by
  induction l generalizing n with
  | nil => rfl
  | cons a t ih => rw [assignRk, List.map_cons, ih]

theorem pairwise_assignRk (R : ScoredRow → ScoredRow → Prop) (n : ℕ) (l : List ScoredRow)
    (h : l.Pairwise R) : (assignRk n l).Pairwise (fun p q => R p.2 q.2) := by
  induction l generalizing n with
  | nil => simp [assignRk]
  | cons a t ih =>
    rw [List.pairwise_cons] at h
    rw [assignRk, List.pairwise_cons]
    exact ⟨fun q hq => h.1 q.2 (mem_assignRk q _ _ hq), ih _ h.2⟩

theorem perm_insDesc (a : ScoredRow) (l : List ScoredRow) :
    (insDesc a l).Perm (a :: l) := by
  induction l with
  | nil => exact List.Perm.refl _
  | cons b t ih =>
    rw [insDesc]
    by_cases h : |a.edge| < |b.edge|
    · rw [if_pos h]
      exact (ih.cons b).trans (List.Perm.swap a b t)
    · rw [if_neg h]

theorem perm_sortByAbsEdge (l : List ScoredRow) : (sortByAbsEdge l).Perm l := by
  induction l with
  | nil => exact List.Perm.refl _
  | cons a t ih =>
    rw [sortByAbsEdge]
    exact (perm_insDesc a _).trans (ih.cons a)

theorem computeModelInputs_ok_nonempty (wr : List WRRow)
    (defs : List (String × DefenseProfile)) (cfg : ModelConfig) (g : Globals)
    (out : List (ℕ × ScoredRow))
    (hok : computeModelInputs wr defs cfg g = Except.ok out) :
    (scoreLoop defs cfg g wr).isEmpty = false := by
  simp only [computeModelInputs] at hok
  by_cases h : (scoreLoop defs cfg g wr).isEmpty
  · rw [if_pos h] at hok
    simp at hok
  · simpa using h

/-- The ok-result contract of `compute_model` with the sort stage modelled
only by what `sort_values` documents for its default `kind='quicksort'`: the
reindexed frame is SOME permutation of the filtered rows in descending
`|Edge|` order — the order among rows with equal `|Edge|` is unspecified —
and `Rk` is then assigned positionally. -/
def computeModelRel (wr : List WRRow) (defs : List (String × DefenseProfile))
    (cfg : ModelConfig) (g : Globals) (out : List (ℕ × ScoredRow)) : Prop :=
  (scoreLoop defs cfg g wr).isEmpty = false ∧
    ∃ sorted : List ScoredRow,
      sorted.Perm (qualifiedFilter g (scoreLoop defs cfg g wr)) ∧
      sorted.Pairwise (fun x y => |y.edge| ≤ |x.edge|) ∧
      out = assignRk 1 sorted

/-- The executable model is one admissible realization of the contract. -/
theorem computeModelInputs_realizes (wr : List WRRow)
    (defs : List (String × DefenseProfile)) (cfg : ModelConfig) (g : Globals)
    (out : List (ℕ × ScoredRow))
    (hok : computeModelInputs wr defs cfg g = Except.ok out) :
    computeModelRel wr defs cfg g out :=
  ⟨computeModelInputs_ok_nonempty wr defs cfg g out hok,
    sortByAbsEdge (qualifiedFilter g (scoreLoop defs cfg g wr)),
    perm_sortByAbsEdge _, pairwise_sortByAbsEdge _,
    computeModelInputs_ok wr defs cfg g out hok⟩

/-- A third all-splits-missing receiver row, identical in score to `wrA`
(edge 0) but with route share 41. -/
def wrE : WRRow := ⟨"Epsilon", "FFF", some teamD, 2, 80, none, none, none, none,
  none, none, some 41⟩

/-- The scored output row of `wrE`. -/
def sE : ScoredRow := ⟨"Epsilon", "FFF", teamD, 41, 2, 2, 0, 0, 0⟩

theorem evalRowE : scoreRow cfgW gW defD teamD wrE = sE := by
  rw [scoreRow_neutral cfgW gW defD teamD wrE rfl rfl rfl rfl rfl rfl
    (by norm_num [wrE]) (by norm_num [wrE]) (by norm_num [totalCoverage, defD])
    (by norm_num [totalSafety, defD])]
  simp only [wrE, sE, pyround_two, Option.getD_some]

theorem evalLoopAE : scoreLoop defsW cfgW gW [wrA, wrE] = [sA, sE] := by
  rw [scoreLoop_cons_hit defsW cfgW gW wrA [wrE] teamD defD (by norm_num [wrA]) rfl rfl,
    evalRowA,
    scoreLoop_cons_hit defsW cfgW gW wrE [] teamD defD (by norm_num [wrE]) rfl rfl,
    evalRowE]
  rfl

/-- Claim C5 counterexample: on the table `[wrA, wrE]` both rows tie at
`|Edge| = 0`, and ranking the tied rows in the order `[sE, sA]` — the reverse
of the input order — is an admissible execution of the program, since the
unstable default sort guarantees no tie order; it differs from the ranking
the claim mandates (`wrA`'s row first). -/
theorem rank_tie_break_cex :
    |sE.edge| = |sA.edge| ∧
      computeModelRel [wrA, wrE] defsW cfgW gW [(1, sE), (2, sA)] ∧
      [(1, sE), (2, sA)] ≠ assignRk 1 [sA, sE] := by
  have hfil : qualifiedFilter gW [sA, sE] = [sA, sE] := by
    simp [qualifiedFilter, gW]
  refine ⟨by norm_num [sA, sE], ⟨?_, [sE, sA], ?_, ?_, rfl⟩, ?_⟩
  · rw [evalLoopAE]
    rfl
  · rw [evalLoopAE, hfil]
    exact List.Perm.swap sA sE []
  · norm_num [List.pairwise_cons, sA, sE]
  · intro h
    injection h with h1 h2
    injection h1 with h3 h4
    have h5 : sE.route_pct = sA.route_pct := by rw [h4]
    norm_num [sE, sA] at h5

/-- Claim C5 (amended): for every admissible realization of the sort — any
permutation of the filtered rows in descending `|Edge|` order, with no
guarantee on the order of ties — the ranked output is sorted by descending
absolute stored edge and its rank column is exactly `1..N` in that order. -/
theorem rank_of_admissible_sort (wr : List WRRow)
    (defs : List (String × DefenseProfile)) (cfg : ModelConfig) (g : Globals)
    (out : List (ℕ × ScoredRow)) (h : computeModelRel wr defs cfg g out) :
    out.Pairwise (fun p q => |q.2.edge| ≤ |p.2.edge|) ∧
      out.map Prod.fst = List.range' 1 out.length := by
  obtain ⟨-, sorted, -, hsort, hout⟩ := h
  rw [hout]
  exact ⟨pairwise_assignRk _ 1 _ hsort,
    by rw [map_fst_assignRk, length_assignRk]⟩

/-- Claim C5 amended-theorem witness: the single-row table `[wrA]`, whose
executable run realizes the contract. -/
theorem rank_of_admissible_sort_w :
    computeModelRel [wrA] defsW cfgW gW [(1, sA)] ∧
      (([(1, sA)] : List (ℕ × ScoredRow)).Pairwise
        (fun p q => |q.2.edge| ≤ |p.2.edge|) ∧
      ([(1, sA)] : List (ℕ × ScoredRow)).map Prod.fst =
        List.range' 1 ([(1, sA)] : List (ℕ × ScoredRow)).length) :=
  ⟨computeModelInputs_realizes [wrA] defsW cfgW gW [(1, sA)] evalModelA,
    rank_of_admissible_sort [wrA] defsW cfgW gW [(1, sA)]
      (computeModelInputs_realizes [wrA] defsW cfgW gW [(1, sA)] evalModelA)⟩

/-! ### Claim C6 -/

/-- Claim C6 counterexample: two calls with identical explicit arguments but
different module-level toggle state return different results — with the 35%
toggle on, the row with route share 25 is filtered out. -/
theorem hidden_state_cex :
    computeModelInputs [wrB] defsW cfgW gT35 ≠ computeModelInputs [wrB] defsW cfgW gW := by
  rw [evalModelB_t35, evalModelB]
  simp

/-- Claim C6 (amended): `compute_model` is deterministic given its explicit
arguments together with the module-level state it reads (the two route-share
toggles and the five league-average coverage rates); the output depends on
nothing else. -/
theorem determinism_given_module_state (wr : List WRRow)
    (defs : List (String × DefenseProfile)) (cfg : ModelConfig) (g₁ g₂ : Globals)
    (h35 : g₁.qualified_toggle_35 = g₂.qualified_toggle_35)
    (h20 : g₁.qualified_toggle_20 = g₂.qualified_toggle_20)
    (hm : g₁.league_avg_man = g₂.league_avg_man)
    (hz : g₁.league_avg_zone = g₂.league_avg_zone)
    (h1 : g₁.league_avg_1high = g₂.league_avg_1high)
    (h2 : g₁.league_avg_2high = g₂.league_avg_2high)
    (h0 : g₁.league_avg_0high = g₂.league_avg_0high) :
    computeModelInputs wr defs cfg g₁ = computeModelInputs wr defs cfg g₂ := by
  have hg : g₁ = g₂ := by
    cases g₁
    cases g₂
    simp_all
  rw [hg]

/-- Claim C6 amended-theorem witness: two observationally equal module states
give the same output on the concrete table. -/
theorem determinism_given_module_state_w :
    computeModelInputs [wrA] defsW cfgW gW = computeModelInputs [wrA] defsW cfgW gW :=
  determinism_given_module_state [wrA] defsW cfgW gW gW rfl rfl rfl rfl rfl rfl rfl

/-! ### Claim C7 -/

theorem regressed_1_20_3 : regressedSplit 1 20 (some 3) = 8/5 := by
  norm_num [regressedSplit, clip, min_def, max_def]

/-- A defense profile identical to `defD` except that it never blitzes. -/
def defZ : DefenseProfile := ⟨0.6, 0.4, 0.3, 0.3, 0.4, 0⟩

/-- A receiver row whose only observed split is a strong blitz split. -/
def wrBl : WRRow := ⟨"Delta", "EEE", some teamD, 1, 20, none, none, none, none,
  none, some 3, some 40⟩

/-- Claim C7 counterexample: against the never-blitzing defense `defZ`
(`blitz_pct = 0`) the blitz split still moves the score at full half weight:
the code computes `adjusted_yprr = 1.3`, while the claimed blitz component
`blitz_pct * ratio_blitz + (1 - blitz_pct) * 1` is neutral (1) and would give
`adjusted_yprr = 1`. -/
theorem blitz_component_cex :
    defZ.blitz_pct = 0 ∧
      adjustedYprr cfgW gW defZ wrBl = 13/10 ∧
      wrBl.base_yprr * ((hybridRat cfgW gW defZ wrBl +
        (defZ.blitz_pct * ratioBlitz wrBl + (1 - defZ.blitz_pct) * 1)) / 2) = 1 ∧
      (13/10 : ℚ) ≠ 1 := by
  have hM : ratioMan wrBl = 1 := regressedSplit_none 1 20 (by norm_num) (by norm_num)
  have hZ : ratioZone wrBl = 1 := regressedSplit_none 1 20 (by norm_num) (by norm_num)
  have hO : ratioOneHigh wrBl = 1 := regressedSplit_none 1 20 (by norm_num) (by norm_num)
  have hT : ratioTwoHigh wrBl = 1 := regressedSplit_none 1 20 (by norm_num) (by norm_num)
  have hE : ratioZeroHigh wrBl = 1 := regressedSplit_none 1 20 (by norm_num) (by norm_num)
  have hBz : ratioBlitz wrBl = 8/5 := regressed_1_20_3
  have hcc : coverageComponent defZ wrBl = 1 := by
    rw [coverageComponent, hM, hZ]
    norm_num [defZ]
  have hsr : safetyComponentRaw defZ wrBl = 1 := by
    rw [safetyComponentRaw, hO, hT, hE]
    norm_num [defZ]
  have hts : totalSafety defZ = 1 := by norm_num [totalSafety, defZ]
  have htc : totalCoverage defZ = 1 := by norm_num [totalCoverage, defZ]
  have hsc : safetyComponent defZ wrBl = 1 := by
    rw [safetyComponent, if_pos (by rw [hts]; norm_num), hsr, hts]
    norm_num
  have hA : systemA defZ wrBl = 1 := by
    rw [systemA, if_pos (by rw [htc, hts]; norm_num), hcc, hsc, htc, hts]
    norm_num
  have hcd : coverageDev gW defZ = 0 := by norm_num [coverageDev, gW, defZ]
  have hsd : safetyDev gW defZ = 0 := by norm_num [safetyDev, gW, defZ]
  have hwc : covWeightDev gW defZ = 1/2 := by
    rw [covWeightDev, hcd, hsd]
    norm_num
  have hws : safWeightDev gW defZ = 1/2 := by
    rw [safWeightDev, hcd, hsd]
    norm_num
  have hB : systemB gW defZ wrBl = 1 := by
    rw [systemB, hcc, hsc, hwc, hws]
    norm_num
  have hH : hybridRat cfgW gW defZ wrBl = 1 := by
    rw [hybridRat, hA, hB]
    norm_num [cfgW]
  refine ⟨rfl, ?_, ?_, by norm_num⟩
  · rw [adjustedYprr, hH, hBz]
    norm_num [wrBl]
  · rw [hH, hBz]
    norm_num [defZ, wrBl]

/-- Claim C7 (amended): the blitz split enters the score with a fixed weight
of one half — `adjusted_yprr = base * ((final_ratio + blitz_ratio) / 2)` —
and the result is independent of the defense's `blitz_pct`: two defenses that
agree on every other field produce identical output rows. -/
theorem blitz_pct_not_used (cfg : ModelConfig) (g : Globals) (opp : String) (r : WRRow)
    (d₁ d₂ : DefenseProfile)
    (hm : d₁.man_pct = d₂.man_pct) (hz : d₁.zone_pct = d₂.zone_pct)
    (h1 : d₁.onehigh_pct = d₂.onehigh_pct) (h2 : d₁.twohigh_pct = d₂.twohigh_pct)
    (h0 : d₁.zerohigh_pct = d₂.zerohigh_pct) :
    adjustedYprr cfg g d₁ r = r.base_yprr * ((hybridRat cfg g d₁ r + ratioBlitz r) / 2) ∧
      scoreRow cfg g d₁ opp r = scoreRow cfg g d₂ opp r := by
  refine ⟨rfl, ?_⟩
  obtain ⟨m₁, z₁, o₁, t₁, e₁, b₁⟩ := d₁
  obtain ⟨m₂, z₂, o₂, t₂, e₂, b₂⟩ := d₂
  dsimp only at hm hz h1 h2 h0
  subst hm hz h1 h2 h0
  rfl

/-- Claim C7 amended-theorem witness: `defD` (20% blitz) and `defZ` (0%
blitz) agree on all other fields and produce the same output row for `wrC`. -/
theorem blitz_pct_not_used_w :
    defD.man_pct = defZ.man_pct ∧
      (adjustedYprr cfgW gW defD wrC =
        wrC.base_yprr * ((hybridRat cfgW gW defD wrC + ratioBlitz wrC) / 2) ∧
      scoreRow cfgW gW defD teamD wrC = scoreRow cfgW gW defZ teamD wrC) :=
  ⟨by norm_num [defD, defZ],
    blitz_pct_not_used cfgW gW teamD wrC defD defZ (by norm_num [defD, defZ])
      (by norm_num [defD, defZ]) (by norm_num [defD, defZ])
      (by norm_num [defD, defZ]) (by norm_num [defD, defZ])⟩

/-! ### Claim C8 -/

/-- Claim C8: whenever no receiver row survives the eligibility filter — in
particular for an empty receiver table — `results` is empty, the frame
`pd.DataFrame([])` has no columns, and the first column subscript raises a
`KeyError` instead of returning an empty result. -/
theorem empty_eligible_key_error (wr : List WRRow)
    (defs : List (String × DefenseProfile)) (cfg : ModelConfig) (g : Globals)
    (h : scoreLoop defs cfg g wr = []) :
    computeModelInputs wr defs cfg g = Except.error (missingColumn g) := by
  simp only [computeModelInputs]
  rw [h]
  rfl

/-- Claim C8 witness: the empty receiver table with both toggles off fails
with the `KeyError` on the `Edge` column. -/
theorem empty_eligible_key_error_w :
    scoreLoop defsW cfgW gW [] = [] ∧
      computeModelInputs [] defsW cfgW gW = Except.error (missingColumn gW) :=
  ⟨rfl, empty_eligible_key_error [] defsW cfgW gW rfl⟩

/-! ### Claim C9 (counterexample part) -/

/-- Claim C9 counterexample: `cfgBad` has its zero-confidence threshold (30)
above its full-confidence threshold (5), yet `compute_model` raises no
configuration error and returns a result computed with that configuration. -/
theorem malformed_config_accepted_cex :
    cfgBad.start_penalty ≤ cfgBad.end_penalty ∧
      computeModelInputs [wrA] defsW cfgBad gW = Except.ok [(1, sA)] :=
  ⟨by norm_num [cfgBad], evalModelA_bad⟩
